import Mathlib

/-!
Verification of `regtests/testsuite.py` (the templates_parser testsuite
driver).  The Python source is shallowly embedded: pure computations
(discriminant construction, command-line construction, list filtering,
option parsing) become Lean functions, and the file-system effects of the
result-directory cleanup and of the final report phase become explicit
state passing over an association-list file system.
-/

namespace Testsuite

/-! ## Strings as character lists: substring containment (Python `in`) -/

/-- Boolean test that `n` is a prefix of `h` (character lists). -/
def startsWithB : List Char → List Char → Bool
  | _, [] => true
  | [], _ :: _ => false
  | a :: h, b :: n => a == b && startsWithB h n

/-- Boolean test that `needle` occurs contiguously inside `hay`:
the semantics of Python's `needle in hay` on strings. -/
def strContainsB : List Char → List Char → Bool
  | [], needle => needle.isEmpty
  | h :: t, needle => startsWithB (h :: t) needle || strContainsB t needle

theorem startsWithB_iff (n h : List Char) :
    startsWithB h n = true ↔ ∃ rest, h = n ++ rest := by
  induction n generalizing h with
  | nil => simp [startsWithB]
  | cons b n ih =>
    cases h with
    | nil => simp [startsWithB]
    | cons a t =>
      simp only [startsWithB, Bool.and_eq_true, beq_iff_eq, ih]
      constructor
      · rintro ⟨rfl, rest, rfl⟩
        exact ⟨rest, rfl⟩
      · rintro ⟨rest, hr⟩
        injection hr with h1 h2
        exact ⟨h1, rest, h2⟩

theorem strContainsB_iff (hay needle : List Char) :
    strContainsB hay needle = true ↔
      ∃ pre post, hay = pre ++ needle ++ post := by
  induction hay with
  | nil =>
    cases needle <;> simp [strContainsB]
  | cons h t ih =>
    simp only [strContainsB, Bool.or_eq_true, startsWithB_iff, ih]
    constructor
    · rintro (⟨rest, hr⟩ | ⟨pre, post, hp⟩)
      · exact ⟨[], rest, by simpa using hr⟩
      · exact ⟨h :: pre, post, by simp [hp]⟩
    · rintro ⟨pre, post, hp⟩
      cases pre with
      | nil =>
        left
        exact ⟨post, by simpa using hp⟩
      | cons p ps =>
        right
        injection hp with h1 h2
        exact ⟨ps, post, h2⟩

/-! ## `filter_list` (testsuite.py lines 110-119)

`glob(pattern)` depends on the host file system, so the glob expansion is
a parameter `globResult`; the rest of the function is embedded verbatim:
an empty `run_test` string is falsy in Python, returning the whole list,
otherwise a list comprehension keeps the paths containing `run_test`. -/

def filter_list (globResult : List String) (run_test : String) : List String :=
  if run_test == "" then globResult
  else globResult.filter (fun test => strContainsB test.data run_test.data)

/-! ## Discriminant construction (testsuite.py lines 73-79)

`discs = ['ALL']` is followed by `discs.append('ALL')`, then the platform
tag, the triplet tag, and (when truthy) the user-supplied discriminants. -/

def buildDiscs (platform triplet : String) (userDiscs : Option (List String)) :
    List String :=
  let discs := ["ALL"]
  let discs := discs ++ ["ALL"]
  let discs := discs ++ [platform]
  let discs := discs ++ [triplet]
  match userDiscs with
  | some u => if !u.isEmpty then discs ++ u else discs
  | none => discs

/-! ## PLATFORM / PRJ_BUILD environment setup (testsuite.py lines 23-36) -/

/-- Python `str.lower()` on the embedded character list. -/
def lowerStr (s : String) : String := ⟨s.data.map Char.toLower⟩

/-- Model of `PLATFORM = os.environ.get("PLATFORM")`, defaulted to `"native"` when
unset and lowercased otherwise. -/
def pickPlatform (env : Option String) : String :=
  match env with
  | none => "native"
  | some s => lowerStr s

/-- Model of `PRJ_BUILD = os.environ.get("PRJ_BUILD")`, defaulted to `"debug"` when
unset and lowercased otherwise. -/
def pickPrjBuild (env : Option String) : String :=
  match env with
  | none => "debug"
  | some s => lowerStr s

/-- Model of `ep = os.getcwd() + "/../.build/" + PLATFORM + "/" + PRJ_BUILD + "/static/"`:
the root of the auxiliary-driver search path. -/
def epOf (cwd platform prj : String) : String :=
  cwd ++ "/../.build/" ++ platform ++ "/" ++ prj ++ "/static/"

/-- The search-path root as actually computed by the module-level setup,
from the raw environment values. -/
def searchPathRoot (cwd : String) (envPlatform envPrjBuild : Option String) :
    String :=
  epOf cwd (pickPlatform envPlatform) (pickPrjBuild envPrjBuild)

/-! ## Positional-argument handling in `__parse_options` (lines 133-138) -/

/-- Model of `m.options.run_test = m.args[0] if m.args else ""`. -/
def parseRunTest : List String → String
  | [] => ""
  | a :: _ => a

/-! ## A file-system model for the result-directory manager

Files are an association list from path to content (first binding wins,
as `lookupFS` shows); directories are a list of existing directory
paths.  `rm(file, True)` deletes a file if present, `mkdir` creates a
directory if missing, `open(p, 'w')` overwrites. -/

/-- Association-list file system: existing files with their contents. -/
abbrev Files := List (String × String)

def lookupFS : Files → String → Option String
  | [], _ => none
  | (k, v) :: t, p => if k == p then some v else lookupFS t p

/-- Model of `rm(p, True)`: delete the file at `p` when present, no error otherwise. -/
def rmFile (p : String) (fs : Files) : Files :=
  fs.filter (fun kv => !(kv.1 == p))

/-- Delete every path of `ps` in turn (the inner `for file in glob(...)`
loop body). -/
def rmAll (ps : List String) (fs : Files) : Files :=
  ps.foldl (fun acc p => rmFile p acc) fs

/-- Model of `open(p, 'w').write(c)`: create or truncate-and-overwrite. -/
def writeFile (p c : String) (fs : Files) : Files :=
  (p, c) :: rmFile p fs

/-- Boolean test that `l` ends with `suf`. -/
def endsWithB (l suf : List Char) : Bool :=
  startsWithB l.reverse suf.reverse

/-- Path shape matched by the glob pattern `dir + '/*' + ext`: the path is
`dir ++ "/" ++ name` where `name` has no further `/` (a single `*` does not
cross directory separators), does not start with `.` (glob hides dotfiles)
and ends with `ext`. -/
def matchesPatL (dir ext p : List Char) : Bool :=
  startsWithB p (dir ++ ['/']) &&
    (let name := p.drop (dir.length + 1)
     !startsWithB name ['.'] && !name.contains '/' && endsWithB name ext)

def matchesPat (dir ext p : String) : Bool :=
  matchesPatL dir.data ext.data p.data

/-- Model of `glob(dir + '/*' + ext)` evaluated against the modelled file system:
the existing paths of the matching shape. -/
def globArt (dir ext : String) (fs : Files) : List String :=
  (fs.map Prod.fst).filter (fun p => matchesPat dir ext p)

/-- The four artifact extensions cleaned up in testsuite.py line 68. -/
def artifactExts : List String := [".diff", ".expected", ".out", ".result"]

/-- One iteration of the outer cleanup loop: remove every current file
matching `dir/*ext`. -/
def removeExt (dir ext : String) (fs : Files) : Files :=
  rmAll (globArt dir ext fs) fs

/-- File-system state: files plus the set of existing directories. -/
structure FState where
  files : Files
  dirs : List String

/-- Model of `mkdir(d)` in gnatpython: create the directory when missing. -/
def insertDir (d : String) (l : List String) : List String :=
  if l.contains d then l else d :: l

/-- Lines 66-70 of testsuite.py: remove the results file, the report file,
the (working-directory relative) `discs` file, then every artifact file
`dir/*ext` for the four extensions in turn. -/
def cleanFiles (dir : String) (files : Files) : Files :=
  let f1 := rmFile (dir ++ "/results") files
  let f2 := rmFile (dir ++ "/report") f1
  let f3 := rmFile "discs" f2
  artifactExts.foldl (fun acc ext => removeExt dir ext acc) f3

/-- Lines 65-71 of testsuite.py: when the result directory exists, clean
it; then `mkdir(result_dir)` unconditionally. -/
def clearStep (dir : String) (st : FState) : FState :=
  let st1 :=
    if st.dirs.contains dir then { st with files := cleanFiles dir st.files }
    else st
  { st1 with dirs := insertDir dir st1.dirs }

/-- The exact deletion footprint of `cleanFiles dir`: the aggregate
results file, the report file, the `discs` file of the working directory,
and the artifact-extension files inside `dir`. -/
def delSetB (dir p : String) : Bool :=
  (p == dir ++ "/results") || (p == dir ++ "/report") || (p == "discs") ||
    artifactExts.any (fun ext => matchesPat dir ext p)

/-- Membership in the artifact-file footprint alone. -/
def isArtifactB (dir p : String) : Bool :=
  artifactExts.any (fun ext => matchesPat dir ext p)

/-! ## The report phase of `main` (testsuite.py lines 101-107) -/

/-- Model of `MainLoop(test_list, ...)`: each discovered test is handed to the
runner, whose effect on the file system (results collected via
`collect_result`) is abstracted as `effect`. -/
def runLoop (tests : List String)
    (effect : String → Files → Files) (fs : Files) : Files :=
  tests.foldl (fun acc t => effect t acc) fs

/-- Lines 104-107: after the loop, write the space-joined discriminants
into `dir/discs`, then write the report into `dir/report`. -/
def finishRun (dir : String) (discs : List String) (report : String)
    (fs : Files) : Files :=
  writeFile (dir ++ "/report") report
    (writeFile (dir ++ "/discs") (String.intercalate " " discs) fs)

/-! ## Per-test command construction (`test_build_cmd`, lines 81-96) -/

/-- The option fields of `options` that `test_build_cmd` consults.
`host` and `target` are Python strings-or-None; `none` models `None`. -/
structure Options where
  verbose : Bool
  host : Option String
  target : Option String
  enable_cleanup : Bool
  tmp : String

/-- Python truthiness of a string-or-None option value. -/
def pyTruthy : Option String → Bool
  | none => false
  | some s => !(s == "")

/-- The function `test_build_cmd` embedded statement by statement: the base command,
then each conditional `append`. -/
def test_build_cmd (pyExe : String) (discs : List String)
    (result_dir : String) (opts : Options) (test : String) : List String :=
  let cmd := [pyExe, "run-test", "-d", String.intercalate "," discs,
              "-o", result_dir, "-t", opts.tmp, test]
  let cmd := if opts.verbose then cmd ++ ["-v"] else cmd
  let cmd :=
    match opts.host with
    | some h => if h == "" then cmd else cmd ++ ["--host=" ++ h]
    | none => cmd
  let cmd :=
    match opts.target with
    | some t => if t == "" then cmd else cmd ++ ["--target=" ++ t]
    | none => cmd
  if !opts.enable_cleanup then cmd ++ ["--disable-cleanup"] else cmd

/-- Modelled from the spec: the command line as the specification
describes it, `run-test -d <comma-joined discriminants> -o <output-dir>
-t <temp-dir> <test-path>` with `-v` exactly when verbose, `--host=<h>`
and `--target=<t>` exactly when those options are set, and
`--disable-cleanup` exactly when cleanup is disabled. -/
def cmdSpec (pyExe : String) (discs : List String)
    (result_dir : String) (opts : Options) (test : String) : List String :=
  [pyExe, "run-test", "-d", String.intercalate "," discs,
   "-o", result_dir, "-t", opts.tmp, test]
  ++ (if opts.verbose then ["-v"] else [])
  ++ (if pyTruthy opts.host then ["--host=" ++ opts.host.getD ""] else [])
  ++ (if pyTruthy opts.target then ["--target=" ++ opts.target.getD ""] else [])
  ++ (if opts.enable_cleanup then [] else ["--disable-cleanup"])

/-! ## The `__main__` guard (testsuite.py lines 145-149) -/

/-- Outcome of the whole process: printed lines and the exit status. -/
structure ProcOutcome where
  stdout : List String
  exitCode : Nat
  deriving DecidableEq

/-- The top-level guard: `main()` either returns or raises an
`AssertionError` carrying a message.  The guard catches the latter and
prints `'ERROR: %s' % e`; in both cases execution falls off the end of
the module, so the interpreter exits with status 0. -/
def topLevelGuard (mainResult : Except String Unit) : ProcOutcome :=
  match mainResult with
  | Except.ok _ => { stdout := [], exitCode := 0 }
  | Except.error msg => { stdout := ["ERROR: " ++ msg], exitCode := 0 }

/-! ## Lemmas about the file-system model -/

theorem lookup_rmFile (p : String) (fs : Files) (q : String) :
    lookupFS (rmFile p fs) q = if q = p then none else lookupFS fs q := by
  induction fs with
  | nil => simp [rmFile, lookupFS]
  | cons kv t ih =>
    obtain ⟨k, v⟩ := kv
    by_cases hkp : k = p <;> by_cases hkq : k = q <;>
      simp_all [rmFile, List.filter_cons, lookupFS]

theorem lookup_rmAll (ps : List String) (fs : Files) (q : String) :
    lookupFS (rmAll ps fs) q = if q ∈ ps then none else lookupFS fs q := by
  induction ps generalizing fs with
  | nil => simp [rmAll]
  | cons p ps ih =>
    have hstep : rmAll (p :: ps) fs = rmAll ps (rmFile p fs) := rfl
    rw [hstep, ih, lookup_rmFile]
    by_cases hq : q ∈ ps <;> by_cases hqp : q = p <;> simp [hq, hqp]

theorem lookup_eq_none_of_not_key (fs : Files) (q : String)
    (h : q ∉ fs.map Prod.fst) : lookupFS fs q = none := by
  induction fs with
  | nil => rfl
  | cons kv t ih =>
    obtain ⟨k, v⟩ := kv
    simp only [List.map_cons, List.mem_cons] at h
    push_neg at h
    have hk : (k == q) = false := beq_eq_false_iff_ne.mpr (Ne.symm h.1)
    simp [lookupFS, hk, ih h.2]

theorem lookup_removeExt (dir ext : String) (fs : Files) (q : String) :
    lookupFS (removeExt dir ext fs) q =
      if matchesPat dir ext q = true then none else lookupFS fs q := by
  rw [removeExt, lookup_rmAll]
  by_cases hm : matchesPat dir ext q = true
  · simp only [hm, if_true]
    by_cases hk : q ∈ fs.map Prod.fst
    · have hmem : q ∈ globArt dir ext fs :=
        List.mem_filter.mpr ⟨hk, hm⟩
      simp [hmem]
    · have hnot : q ∉ globArt dir ext fs := by
        intro hc
        exact hk (List.mem_of_mem_filter hc)
      simp [hnot, lookup_eq_none_of_not_key fs q hk]
  · have hnot : q ∉ globArt dir ext fs := by
      intro hc
      exact hm (List.mem_filter.mp hc).2
    simp [hnot, hm]

theorem lookup_cleanFiles (dir : String) (fs : Files) (q : String) :
    lookupFS (cleanFiles dir fs) q =
      if delSetB dir q = true then none else lookupFS fs q := by
  have hfold : cleanFiles dir fs =
      removeExt dir ".result" (removeExt dir ".out" (removeExt dir ".expected"
        (removeExt dir ".diff" (rmFile "discs" (rmFile (dir ++ "/report")
          (rmFile (dir ++ "/results") fs)))))) := rfl
  rw [hfold, lookup_removeExt, lookup_removeExt, lookup_removeExt,
    lookup_removeExt, lookup_rmFile, lookup_rmFile, lookup_rmFile]
  simp only [delSetB, artifactExts, List.any_cons, List.any_nil,
    Bool.or_false, Bool.or_eq_true, beq_iff_eq]
  by_cases h1 : matchesPat dir ".diff" q = true <;>
    by_cases h2 : matchesPat dir ".expected" q = true <;>
    by_cases h3 : matchesPat dir ".out" q = true <;>
    by_cases h4 : matchesPat dir ".result" q = true <;>
    by_cases h5 : q = dir ++ "/results" <;>
    by_cases h6 : q = dir ++ "/report" <;>
    by_cases h7 : q = "discs" <;>
    simp [h1, h2, h3, h4, h5, h6, h7]

theorem contains_insertDir (d : String) (l : List String) :
    (insertDir d l).contains d = true := by
  by_cases h : d ∈ l <;> simp_all [insertDir]

theorem lookup_clearStep (dir : String) (st : FState) (q : String) :
    lookupFS (clearStep dir st).files q =
      if st.dirs.contains dir = true then
        (if delSetB dir q = true then none else lookupFS st.files q)
      else lookupFS st.files q := by
  by_cases h : dir ∈ st.dirs <;>
    simp [clearStep, h, lookup_cleanFiles]

theorem dirs_clearStep (dir : String) (st : FState) :
    (clearStep dir st).dirs.contains dir = true := by
  have hins : ∀ l : List String, dir ∈ insertDir dir l := by
    intro l
    by_cases h : dir ∈ l <;> simp [insertDir, h]
  by_cases h : dir ∈ st.dirs <;>
    simp [clearStep, h, hins]

theorem lookup_writeFile (p c : String) (fs : Files) (q : String) :
    lookupFS (writeFile p c fs) q =
      if q = p then some c else lookupFS fs q := by
  by_cases h : q = p
  · subst h
    simp [writeFile, lookupFS]
  · have hp : (p == q) = false := beq_eq_false_iff_ne.mpr (Ne.symm h)
    simp [writeFile, lookupFS, hp, lookup_rmFile, h]

theorem append_ne_of_data_ne (s a b : String) (h : a.data ≠ b.data) :
    s ++ a ≠ s ++ b := by
  intro hc
  have hd : (s ++ a).data = (s ++ b).data := congrArg String.data hc
  have hd2 : s.data ++ a.data = s.data ++ b.data := hd
  exact h (List.append_cancel_left hd2)

/-! ## The claims -/

/-- C1 (counterexample): with no user-supplied discriminants, the
discriminant list built by `main` contains the tag `ALL` twice, not
exactly once: `discs = ['ALL']` on line 73 is immediately followed by
`discs.append('ALL')` on line 74. -/
theorem buildDiscs_count_counterexample :
    ¬ ((buildDiscs "x86-linux" "x86_64-pc-linux-gnu" none).count "ALL" = 1) := by
  decide

/-- C1 (amended): the discriminant list contains `ALL` exactly twice as
its first two elements, followed by the platform tag and the
target-triplet tag, with any user-supplied discriminants after those. -/
theorem buildDiscs_structure (p t : String) (u : List String) :
    buildDiscs p t (some u) = "ALL" :: "ALL" :: p :: t :: u ∧
    buildDiscs p t none = ["ALL", "ALL", p, t] := by
  constructor
  · cases u <;> simp [buildDiscs]
  · rfl

/-- C2: `filter_list` returns the whole glob expansion when the filter is
the empty string, and exactly the paths that contain the filter as a
contiguous substring otherwise. -/
theorem filter_list_characterisation (globResult : List String) (f : String) :
    (f = "" → filter_list globResult f = globResult) ∧
    (f ≠ "" → ∀ x, x ∈ filter_list globResult f ↔
      x ∈ globResult ∧ ∃ pre post, x.data = pre ++ f.data ++ post) := by
  constructor
  · intro h
    subst h
    simp [filter_list]
  · intro h x
    have hne : (f == "") = false := beq_eq_false_iff_ne.mpr h
    simp [filter_list, hne, List.mem_filter, strContainsB_iff]

/-- Witness for C2 at a concrete glob expansion and filter. -/
theorem filter_list_characterisation_witness :
    (("tests/ab" : String) ∈ filter_list ["tests/ab", "tests/cd"] "ab" ↔
      ("tests/ab" : String) ∈ (["tests/ab", "tests/cd"] : List String) ∧
        ∃ pre post, ("tests/ab" : String).data =
          pre ++ ("ab" : String).data ++ post) ∧
    filter_list ["tests/ab", "tests/cd"] "" = ["tests/ab", "tests/cd"] :=
  ⟨(filter_list_characterisation ["tests/ab", "tests/cd"] "ab").2
      (by decide) "tests/ab",
   (filter_list_characterisation ["tests/ab", "tests/cd"] "").1 rfl⟩

/-- C3: the cleanup step of `main` deletes only the aggregate results
file `dir/results`, the report file `dir/report`, the
working-directory-relative `discs` file, and the files matching the four
artifact extensions inside the output directory; every path outside that
footprint — in particular every file outside the output directory other
than `discs` — keeps its content, and the listed paths are gone
afterwards whenever the directory existed. -/
theorem clearStep_frame (st : FState) (dir p : String) :
    (delSetB dir p = false →
      lookupFS (clearStep dir st).files p = lookupFS st.files p) ∧
    (st.dirs.contains dir = true → delSetB dir p = true →
      lookupFS (clearStep dir st).files p = none) := by
  constructor
  · intro hfalse
    rw [lookup_clearStep]
    by_cases h : st.dirs.contains dir = true <;> simp [h, hfalse]
  · intro hdir htrue
    have hmem : dir ∈ st.dirs := by simpa using hdir
    rw [lookup_clearStep]
    simp [hmem, htrue]

/-- Witness for C3 on a concrete three-file state: an unrelated file
survives, a matching artifact file is deleted. -/
theorem clearStep_frame_witness :
    lookupFS (clearStep "o" ⟨[("o/results", "r"), ("keep.txt", "k"),
        ("o/a.diff", "d")], ["o"]⟩).files "keep.txt" =
      lookupFS [("o/results", "r"), ("keep.txt", "k"), ("o/a.diff", "d")]
        "keep.txt" ∧
    lookupFS (clearStep "o" ⟨[("o/results", "r"), ("keep.txt", "k"),
        ("o/a.diff", "d")], ["o"]⟩).files "o/a.diff" = none :=
  ⟨(clearStep_frame ⟨[("o/results", "r"), ("keep.txt", "k"),
      ("o/a.diff", "d")], ["o"]⟩ "o" "keep.txt").1 (by decide),
   (clearStep_frame ⟨[("o/results", "r"), ("keep.txt", "k"),
      ("o/a.diff", "d")], ["o"]⟩ "o" "o/a.diff").2 (by decide) (by decide)⟩

/-- C4: on any non-empty existing output directory, running the
clear-and-recreate step twice in a row leaves the directory existing and
free of `.diff`/`.expected`/`.out`/`.result` files after each of the two
runs. -/
theorem clearStep_idempotent (st : FState) (dir : String)
    (hdir : st.dirs.contains dir = true) (_hne : st.files ≠ []) :
    (clearStep dir st).dirs.contains dir = true ∧
    (clearStep dir (clearStep dir st)).dirs.contains dir = true ∧
    (∀ p, isArtifactB dir p = true →
      lookupFS (clearStep dir st).files p = none) ∧
    (∀ p, isArtifactB dir p = true →
      lookupFS (clearStep dir (clearStep dir st)).files p = none) := by
  have hdel : ∀ p, isArtifactB dir p = true → delSetB dir p = true := by
    intro p hp
    simp only [isArtifactB] at hp
    simp [delSetB, hp]
  have h1 : (clearStep dir st).dirs.contains dir = true :=
    dirs_clearStep dir st
  have hmem : dir ∈ st.dirs := by simpa using hdir
  have hmem1 : dir ∈ (clearStep dir st).dirs := by simpa using h1
  refine ⟨h1, dirs_clearStep dir (clearStep dir st), ?_, ?_⟩
  · intro p hp
    rw [lookup_clearStep]
    simp [hmem, hdel p hp]
  · intro p hp
    rw [lookup_clearStep]
    simp [hmem1, hdel p hp]

/-- Witness for C4 on a concrete one-artifact state. -/
theorem clearStep_idempotent_witness :
    lookupFS (clearStep "o" ⟨[("o/x.out", "v")], ["o"]⟩).files "o/x.out" =
      none ∧
    lookupFS (clearStep "o"
        (clearStep "o" ⟨[("o/x.out", "v")], ["o"]⟩)).files "o/x.out" = none :=
  ⟨(clearStep_idempotent ⟨[("o/x.out", "v")], ["o"]⟩ "o" (by decide)
      (by decide)).2.2.1 "o/x.out" (by decide),
   (clearStep_idempotent ⟨[("o/x.out", "v")], ["o"]⟩ "o" (by decide)
      (by decide)).2.2.2 "o/x.out" (by decide)⟩

/-- C5: `test_build_cmd` produces exactly the command line the
specification describes, conditional flags included. -/
theorem test_build_cmd_eq_spec (pyExe : String) (discs : List String)
    (result_dir : String) (opts : Options) (test : String) :
    test_build_cmd pyExe discs result_dir opts test =
      cmdSpec pyExe discs result_dir opts test := by
  obtain ⟨vb, host, target, ec, tmp⟩ := opts
  rcases host with _ | h <;> rcases target with _ | t <;>
    cases vb <;> cases ec <;>
    simp [test_build_cmd, cmdSpec, pyTruthy] <;>
    split_ifs <;> simp_all

/-- C6 (counterexample): when `main` raises an assertion failure the
guard catches it and prints the `ERROR:`-prefixed message, but the
interpreter then falls off the end of the module and exits with status
0 — not with a nonzero error status as the claim states. -/
theorem topLevelGuard_exit_zero :
    (topLevelGuard (Except.error "boom")).exitCode = 0 ∧
    (topLevelGuard (Except.error "boom")).stdout = ["ERROR: boom"] :=
  ⟨rfl, rfl⟩

/-- C6 (amended): an assertion failure raised during `main` is caught at
the top level, its message is printed with an `ERROR:` prefix, no stack
trace is produced, and the process then exits normally with status 0. -/
theorem topLevelGuard_catches (msg : String) :
    topLevelGuard (Except.error msg) =
      { stdout := ["ERROR: " ++ msg], exitCode := 0 } := rfl

/-- C7: whatever the test loop did — including the zero-test loop — the
report phase writes `dir/discs` holding the space-joined discriminant
list and then writes the report into `dir/report`. -/
theorem finishRun_writes (dir : String) (discs : List String)
    (report : String) (tests : List String)
    (effect : String → Files → Files) (fs : Files) :
    lookupFS (finishRun dir discs report (runLoop tests effect fs))
        (dir ++ "/discs") = some (String.intercalate " " discs) ∧
    lookupFS (finishRun dir discs report (runLoop tests effect fs))
        (dir ++ "/report") = some report := by
  have hne : dir ++ "/discs" ≠ dir ++ "/report" :=
    append_ne_of_data_ne dir "/discs" "/report" (by decide)
  constructor
  · rw [finishRun, lookup_writeFile, if_neg hne, lookup_writeFile, if_pos rfl]
  · rw [finishRun, lookup_writeFile, if_pos rfl]

/-- C8: the list returned by `filter_list` is a sublist of the glob
expansion: it keeps the glob's order and never introduces a path or a
duplicate the glob did not produce. -/
theorem filter_list_sublist (globResult : List String) (f : String) :
    (filter_list globResult f).Sublist globResult ∧
    ∀ x, (filter_list globResult f).count x ≤ globResult.count x := by
  have hs : (filter_list globResult f).Sublist globResult := by
    rw [filter_list]
    split
    · exact List.Sublist.refl _
    · exact List.filter_sublist _
  exact ⟨hs, fun x => hs.count_le x⟩

/-- C9: a set `PLATFORM` or `PRJ_BUILD` environment value is lowercased
before being spliced into the auxiliary-driver search path; only an unset
variable falls back to the defaults `native` and `debug`. -/
theorem platform_env_lowercased (s t cwd : String) :
    pickPlatform (some s) = lowerStr s ∧
    pickPrjBuild (some t) = lowerStr t ∧
    pickPlatform none = "native" ∧
    pickPrjBuild none = "debug" ∧
    searchPathRoot cwd (some s) (some t) =
      cwd ++ "/../.build/" ++ lowerStr s ++ "/" ++ lowerStr t ++ "/static/" ∧
    searchPathRoot cwd none none =
      cwd ++ "/../.build/" ++ "native" ++ "/" ++ "debug" ++ "/static/" :=
  ⟨rfl, rfl, rfl, rfl, rfl, rfl⟩

/-- C10: with no positional arguments the single-test filter is the empty
string; otherwise it is the first positional argument, and any further
positional arguments do not influence it. -/
theorem parseRunTest_first_arg (a : String) (rest moreRest : List String) :
    parseRunTest [] = "" ∧
    parseRunTest (a :: rest) = a ∧
    parseRunTest (a :: rest) = parseRunTest (a :: moreRest) :=
  ⟨rfl, rfl, rfl⟩

end Testsuite
